import Mathlib

/-!
# Verification of the license-check core (detect / compat)

Shallow embedding of the license-detection and policy-compatibility engine
(`src/config.ts`, `src/types.ts`, `src/tools/detect.ts`, `src/tools/compat.ts`).

Strings are modelled as `List Char` (`Str`); the helper `str` converts a Lean
string literal to this representation. JavaScript string primitives used by the
source (`trim`, `toUpperCase`, `toLowerCase`, `startsWith`, `endsWith`,
`replace` with a plain-string needle, regex `test` with the `i` flag) are
modelled by executable functions over `List Char` below, for the ASCII
alphabet that all registry data and patterns use.
-/

namespace LicenseCheck

/-- Strings of the modelled program, as lists of characters. -/
abbrev Str := List Char

/-- Conversion from a Lean string literal to the model representation. -/
def str (s : String) : Str := s.data

/-- JavaScript whitespace (`\s`), restricted to the ASCII characters that can
occur in the modelled data: space, tab, newline, carriage return, vertical
tab, form feed. -/
def isWs (c : Char) : Bool :=
  c = ' ' || c = '\t' || c = '\n' || c = '\r' || c = Char.ofNat 11 || c = Char.ofNat 12

/-- ASCII model of `String.prototype.toLowerCase`. -/
def lowerChar (c : Char) : Char :=
  if 'A' ≤ c && c ≤ 'Z' then Char.ofNat (c.toNat + 32) else c

/-- ASCII model of `String.prototype.toUpperCase`. -/
def upperChar (c : Char) : Char :=
  if 'a' ≤ c && c ≤ 'z' then Char.ofNat (c.toNat - 32) else c

/-- `toLowerCase` over a whole string. -/
def lower (s : Str) : Str := s.map lowerChar

/-- `toUpperCase` over a whole string. -/
def upper (s : Str) : Str := s.map upperChar

/-- Leading-whitespace removal (first half of `String.prototype.trim`). -/
def trimLeft (s : Str) : Str := s.dropWhile isWs

/-- Trailing-whitespace removal (second half of `String.prototype.trim`). -/
def trimRight : Str → Str
  | [] => []
  | c :: cs =>
    match trimRight cs with
    | [] => if isWs c then [] else [c]
    | r => c :: r

/-- Model of `String.prototype.trim`: drop whitespace at both ends. -/
def trim (s : Str) : Str := trimRight (trimLeft s)

/-- Model of `String.prototype.replace` with a plain (non-regex) search
string: replace the first occurrence of `pat` by `rep`; if `pat` does not
occur, the string is returned unchanged. Faithful for nonempty `pat`. -/
def replaceFirst (s : Str) (pat rep : Str) : Str :=
  match s with
  | [] => []
  | c :: cs => if pat.isPrefixOf (c :: cs) then rep ++ (c :: cs).drop pat.length
               else c :: replaceFirst cs pat rep

/-- Index of the first occurrence of `pat` in `s` (used to reason about
`replaceFirst`). -/
def firstOccIdx (pat : Str) : Str → Option Nat
  | [] => if pat.isPrefixOf ([] : Str) then some 0 else none
  | c :: cs =>
    if pat.isPrefixOf (c :: cs) then some 0
    else (firstOccIdx pat cs).map (· + 1)

/-! ## Registry data (`src/config.ts`) -/

/-- `SPDX_LICENSE_IDS` from `config.ts`, in source order. -/
def SPDX_LICENSE_IDS : List Str :=
  [str "MIT",
   str "Apache-2.0",
   str "BSD-2-Clause",
   str "BSD-3-Clause",
   str "GPL-2.0-only",
   str "GPL-2.0-or-later",
   str "GPL-3.0-only",
   str "GPL-3.0-or-later",
   str "LGPL-2.1-only",
   str "LGPL-2.1-or-later",
   str "LGPL-3.0-only",
   str "LGPL-3.0-or-later",
   str "ISC",
   str "MPL-2.0",
   str "AGPL-3.0-only",
   str "AGPL-3.0-or-later",
   str "Unlicense",
   str "CC0-1.0",
   str "CC-BY-4.0",
   str "CC-BY-SA-4.0",
   str "Artistic-2.0",
   str "WTFPL",
   str "Zlib",
   str "BSL-1.0",
   str "EPL-2.0",
   str "CDDL-1.0",
   str "0BSD"]

/-- `LICENSE_ALIASES` from `config.ts`, as an association list in insertion
order (the order `Object.entries` yields for its string keys). -/
def LICENSE_ALIASES : List (Str × Str) :=
  [(str "MIT License", str "MIT"),
   (str "The MIT License", str "MIT"),
   (str "Apache License 2.0", str "Apache-2.0"),
   (str "Apache License, Version 2.0", str "Apache-2.0"),
   (str "Apache-2", str "Apache-2.0"),
   (str "Apache 2.0", str "Apache-2.0"),
   (str "BSD-2", str "BSD-2-Clause"),
   (str "BSD 2-Clause", str "BSD-2-Clause"),
   (str "Simplified BSD License", str "BSD-2-Clause"),
   (str "BSD-3", str "BSD-3-Clause"),
   (str "BSD 3-Clause", str "BSD-3-Clause"),
   (str "New BSD License", str "BSD-3-Clause"),
   (str "Modified BSD License", str "BSD-3-Clause"),
   (str "GPL-2.0", str "GPL-2.0-only"),
   (str "GPLv2", str "GPL-2.0-only"),
   (str "GNU GPL v2", str "GPL-2.0-only"),
   (str "GPL-3.0", str "GPL-3.0-only"),
   (str "GPLv3", str "GPL-3.0-only"),
   (str "GNU GPL v3", str "GPL-3.0-only"),
   (str "LGPL-2.1", str "LGPL-2.1-only"),
   (str "LGPLv2.1", str "LGPL-2.1-only"),
   (str "LGPL-3.0", str "LGPL-3.0-only"),
   (str "LGPLv3", str "LGPL-3.0-only"),
   (str "MPL 2.0", str "MPL-2.0"),
   (str "Mozilla Public License 2.0", str "MPL-2.0"),
   (str "AGPL-3.0", str "AGPL-3.0-only"),
   (str "AGPLv3", str "AGPL-3.0-only"),
   (str "Public Domain", str "Unlicense"),
   (str "CC0", str "CC0-1.0"),
   (str "Creative Commons Zero", str "CC0-1.0")]

/-- `COPYLEFT_LICENSES` from `config.ts`. -/
def COPYLEFT_LICENSES : List Str :=
  [str "GPL-2.0-only",
   str "GPL-2.0-or-later",
   str "GPL-3.0-only",
   str "GPL-3.0-or-later",
   str "LGPL-2.1-only",
   str "LGPL-2.1-or-later",
   str "LGPL-3.0-only",
   str "LGPL-3.0-or-later",
   str "AGPL-3.0-only",
   str "AGPL-3.0-or-later",
   str "MPL-2.0",
   str "EPL-2.0",
   str "CDDL-1.0",
   str "CC-BY-SA-4.0"]

/-- `ATTRIBUTION_REQUIRED_LICENSES` from `config.ts`. -/
def ATTRIBUTION_REQUIRED_LICENSES : List Str :=
  [str "MIT",
   str "Apache-2.0",
   str "BSD-2-Clause",
   str "BSD-3-Clause",
   str "ISC",
   str "CC-BY-4.0",
   str "CC-BY-SA-4.0",
   str "BSL-1.0",
   str "Artistic-2.0",
   str "Zlib"]

/-- Exact (case-sensitive) own-key lookup in the alias table: the
own-property part of the source's `trimmed in LICENSE_ALIASES` test
followed by `LICENSE_ALIASES[trimmed]`. The `in` operator of the source is
also true for the keys an object literal inherits from `Object.prototype`;
`normalizeLicenseIdJs` below models that full semantics. -/
def aliasLookup (s : Str) : Option Str :=
  (LICENSE_ALIASES.find? (fun kv => kv.1 == s)).map (·.2)

/-- `normalizeLicenseId` from `detect.ts`: trim, exact alias-table match,
else case-insensitive match against the canonical registry, else pass
through unchanged. This own-key model is faithful to the source for every
input whose trimmed form is not a key inherited from `Object.prototype`;
at an inherited key the source returns the inherited non-string member
instead (see `OBJECT_PROTOTYPE_KEYS` and `normalizeLicenseIdJs` below,
which model the full semantics). -/
def normalizeLicenseId (licenseId : Str) : Str :=
  let trimmed := trim licenseId
  match aliasLookup trimmed with
  | some v => v
  | none =>
    match SPDX_LICENSE_IDS.find? (fun spdxId => upper spdxId == upper trimmed) with
    | some spdxId => spdxId
    | none => trimmed

/-- The property names every plain object literal inherits from
`Object.prototype` (its methods and the `__proto__` accessor): for these the
source's `trimmed in LICENSE_ALIASES` answers true although the table has
no such alias, and `LICENSE_ALIASES[trimmed]` yields the inherited
non-string member. -/
def OBJECT_PROTOTYPE_KEYS : List Str :=
  [str "constructor",
   str "hasOwnProperty",
   str "isPrototypeOf",
   str "propertyIsEnumerable",
   str "toLocaleString",
   str "toString",
   str "valueOf",
   str "__defineGetter__",
   str "__defineSetter__",
   str "__lookupGetter__",
   str "__lookupSetter__",
   str "__proto__"]

/-- A JavaScript value that `normalizeLicenseId` can produce in the source:
a string, or — at an inherited key — the non-string `Object.prototype`
member returned by `LICENSE_ALIASES[trimmed]` (a function, or the prototype
object itself for `__proto__`). -/
inductive JsValue where
  | jsString (s : Str)
  | protoMember (key : Str)
deriving DecidableEq

/-- `normalizeLicenseId` with the membership test `trimmed in LICENSE_ALIASES`
modelled in full: the test holds for the table's own keys and for the keys
inherited from `Object.prototype`. At an own key the lookup yields the
alias value; at an inherited key it yields the inherited non-string member
(the own keys and the inherited keys are disjoint, so lookup order is
immaterial). Applying the function to a non-string argument throws a
TypeError at `licenseId.trim()`, modelled as `none`. -/
def normalizeLicenseIdJs : JsValue → Option JsValue
  | .protoMember _ => none
  | .jsString licenseId =>
    let trimmed := trim licenseId
    match aliasLookup trimmed with
    | some v => some (.jsString v)
    | none =>
      if OBJECT_PROTOTYPE_KEYS.contains trimmed then
        some (.protoMember trimmed)
      else
        match SPDX_LICENSE_IDS.find? (fun spdxId => upper spdxId == upper trimmed) with
        | some spdxId => some (.jsString spdxId)
        | none => some (.jsString trimmed)

/-! ## Signature matching (`LICENSE_PATTERNS` and `detectFromText`)

Each regex literal of `LICENSE_PATTERNS` in `config.ts` is built from literal
runs and simple character-class quantifiers only. We embed them into a small
token language and give it an executable backtracking matcher; `searchToks`
models `RegExp.prototype.test` (existence of a match anywhere in the text).
All the regexes carry the `i` flag, so literals are stored lowercased and the
text is lowercased before matching. -/

/-- Pattern tokens: a literal run, an optional single character (`c?`), one
character of a class, zero-or-more of a class (`\s*`, and `[\s\S]*?`, whose
laziness is irrelevant for match existence), one-or-more of a class
(`\s+`, `[,\s]+`), and a two-way literal alternative (`(x|y)`; an optional
group `(x)?` is the alternative of `x` with the empty literal). -/
inductive Tok where
  | lit (s : Str)
  | optc (c : Char)
  | one (f : Char → Bool)
  | star (f : Char → Bool)
  | plus (f : Char → Bool)
  | alt (a b : Str)

/-- Backtracking matcher: does some prefix of the text match the token
sequence? Structural recursion on a fuel argument so that the definition
evaluates by kernel reduction; every recursive call strictly decreases
`2 * cs.length + ts.length`, so any fuel above that measure gives the
fuel-independent answer (`matchToksFuel_stable` below), and `matchToks`
instantiates the fuel accordingly. -/
def matchToksFuel : Nat → List Tok → Str → Bool
  | 0, _, _ => false
  | _ + 1, [], _ => true
  | f + 1, .lit s :: ts, cs =>
      s.isPrefixOf cs && matchToksFuel f ts (cs.drop s.length)
  | f + 1, .optc _ :: ts, [] => matchToksFuel f ts []
  | f + 1, .optc c :: ts, c2 :: cs2 =>
      matchToksFuel f ts (c2 :: cs2) || (c2 == c && matchToksFuel f ts cs2)
  | _ + 1, .one _ :: _, [] => false
  | f + 1, .one g :: ts, c :: cs2 => g c && matchToksFuel f ts cs2
  | f + 1, .star _ :: ts, [] => matchToksFuel f ts []
  | f + 1, .star g :: ts, c :: cs2 =>
      matchToksFuel f ts (c :: cs2) || (g c && matchToksFuel f (.star g :: ts) cs2)
  | _ + 1, .plus _ :: _, [] => false
  | f + 1, .plus g :: ts, c :: cs2 => g c && matchToksFuel f (.star g :: ts) cs2
  | f + 1, .alt a b :: ts, cs =>
      (a.isPrefixOf cs && matchToksFuel f ts (cs.drop a.length)) ||
      (b.isPrefixOf cs && matchToksFuel f ts (cs.drop b.length))

/-- Does some prefix of `cs` match the token sequence `ts`? -/
def matchToks (ts : List Tok) (cs : Str) : Bool :=
  matchToksFuel (2 * cs.length + ts.length + 1) ts cs

/-- The matcher is fuel-independent above the decrease measure, so
`matchToks` computes the backtracking semantics and not a fuel artifact. -/
theorem matchToksFuel_stable :
    ∀ f g ts cs, 2 * cs.length + ts.length < f → 2 * cs.length + ts.length < g →
      matchToksFuel f ts cs = matchToksFuel g ts cs := by
  intro f
  induction f with
  | zero => intro g ts cs hf _; omega
  | succ f ih =>
    intro g ts cs hf hg
    obtain ⟨g2, rfl⟩ : ∃ g2, g = g2 + 1 := ⟨g - 1, by omega⟩
    cases ts with
    | nil => rfl
    | cons t ts =>
      cases t with
      | lit s =>
        simp only [matchToksFuel, List.length_cons] at *
        have hd : (cs.drop s.length).length ≤ cs.length := by
          simp [List.length_drop]
        rw [ih f ts (cs.drop s.length) (by omega) (by omega),
            ih g2 ts (cs.drop s.length) (by omega) (by omega)]
      | optc c =>
        cases cs with
        | nil =>
          simp only [matchToksFuel, List.length_cons, List.length_nil] at *
          rw [ih f ts [] (by simp; omega) (by simp; omega),
              ih g2 ts [] (by simp; omega) (by simp; omega)]
        | cons c2 cs2 =>
          simp only [matchToksFuel, List.length_cons] at *
          rw [ih f ts (c2 :: cs2) (by simp; omega) (by simp; omega),
              ih g2 ts (c2 :: cs2) (by simp; omega) (by simp; omega),
              ih f ts cs2 (by omega) (by omega),
              ih g2 ts cs2 (by omega) (by omega)]
      | one g3 =>
        cases cs with
        | nil => rfl
        | cons c cs2 =>
          simp only [matchToksFuel, List.length_cons] at *
          rw [ih f ts cs2 (by omega) (by omega), ih g2 ts cs2 (by omega) (by omega)]
      | star g3 =>
        cases cs with
        | nil =>
          simp only [matchToksFuel, List.length_cons, List.length_nil] at *
          rw [ih f ts [] (by simp; omega) (by simp; omega),
              ih g2 ts [] (by simp; omega) (by simp; omega)]
        | cons c cs2 =>
          simp only [matchToksFuel, List.length_cons] at *
          rw [ih f ts (c :: cs2) (by simp; omega) (by simp; omega),
              ih g2 ts (c :: cs2) (by simp; omega) (by simp; omega),
              ih f (.star g3 :: ts) cs2 (by simp; omega) (by simp; omega),
              ih g2 (.star g3 :: ts) cs2 (by simp; omega) (by simp; omega)]
      | plus g3 =>
        cases cs with
        | nil => rfl
        | cons c cs2 =>
          simp only [matchToksFuel, List.length_cons] at *
          rw [ih f (.star g3 :: ts) cs2 (by simp; omega) (by simp; omega),
              ih g2 (.star g3 :: ts) cs2 (by simp; omega) (by simp; omega)]
      | alt a b =>
        simp only [matchToksFuel, List.length_cons] at *
        have hda : (cs.drop a.length).length ≤ cs.length := by
          simp [List.length_drop]
        have hdb : (cs.drop b.length).length ≤ cs.length := by
          simp [List.length_drop]
        rw [ih f ts (cs.drop a.length) (by omega) (by omega),
            ih g2 ts (cs.drop a.length) (by omega) (by omega),
            ih f ts (cs.drop b.length) (by omega) (by omega),
            ih g2 ts (cs.drop b.length) (by omega) (by omega)]

/-- Does the token sequence match at some position of `cs`? This is
`RegExp.prototype.test`. -/
def searchToks (p : List Tok) : Str → Bool
  | [] => matchToks p []
  | c :: cs => matchToks p (c :: cs) || searchToks p cs

/-- The class `[,\s]`. -/
def wsOrComma (c : Char) : Bool := c = ',' || isWs c

/-- The class `[,\s-]`. -/
def wsCommaDash (c : Char) : Bool := c = ',' || isWs c || c = '-'

/-- The class `[\s\S]`: any character. -/
def anyChar (_ : Char) : Bool := true

/-- Regex `/Permission is hereby granted,?\s+free of charge/i`. -/
def mitPattern1 : List Tok :=
  [.lit (str "permission is hereby granted"), .optc ',', .plus isWs,
   .lit (str "free of charge")]

/-- Regex `/MIT License/i`. -/
def mitPattern2 : List Tok := [.lit (str "mit license")]

/-- Regex `/Apache License[,\s]+Version 2\.0/i`. -/
def apachePattern1 : List Tok :=
  [.lit (str "apache license"), .plus wsOrComma, .lit (str "version 2.0")]

/-- Regex `/Licensed under the Apache License/i`. -/
def apachePattern2 : List Tok := [.lit (str "licensed under the apache license")]

/-- Regex `/BSD 3-Clause License/i` (the BSD-3-Clause header signature, placed
before the BSD-2-Clause content signature in the list). -/
def bsd3HeaderPattern : List Tok := [.lit (str "bsd 3-clause license")]

/-- Regex `/Redistribution and use in source and binary forms[\s\S]*?2\.\s*Redistributions in binary form/i`. -/
def bsd2ContentPattern : List Tok :=
  [.lit (str "redistribution and use in source and binary forms"),
   .star anyChar, .lit (str "2."), .star isWs,
   .lit (str "redistributions in binary form")]

/-- Regex `/Redistribution and use in source and binary forms[\s\S]*?3\.\s*(Neither the name|The name)/i`
(the BSD-3-Clause content signature, placed after the BSD-2-Clause one). -/
def bsd3ContentPattern : List Tok :=
  [.lit (str "redistribution and use in source and binary forms"),
   .star anyChar, .lit (str "3."), .star isWs,
   .alt (str "neither the name") (str "the name")]

/-- Regex `/ISC License/i`. -/
def iscPattern1 : List Tok := [.lit (str "isc license")]

/-- Regex `/Permission to use, copy, modify, and\/or distribute this software/i`. -/
def iscPattern2 : List Tok :=
  [.lit (str "permission to use, copy, modify, and/or distribute this software")]

/-- Regex `/GNU GENERAL PUBLIC LICENSE[\s\S]*?Version 2,?\s/i`. -/
def gpl2Pattern : List Tok :=
  [.lit (str "gnu general public license"), .star anyChar,
   .lit (str "version 2"), .optc ',', .one isWs]

/-- Regex `/GNU GENERAL PUBLIC LICENSE[\s\S]*?Version 3,?\s/i`. -/
def gpl3Pattern : List Tok :=
  [.lit (str "gnu general public license"), .star anyChar,
   .lit (str "version 3"), .optc ',', .one isWs]

/-- Regex `/GNU LESSER GENERAL PUBLIC LICENSE[\s\S]*?Version 2\.1/i`. -/
def lgpl21Pattern : List Tok :=
  [.lit (str "gnu lesser general public license"), .star anyChar,
   .lit (str "version 2.1")]

/-- Regex `/GNU LESSER GENERAL PUBLIC LICENSE[\s\S]*?Version 3/i`. -/
def lgpl3Pattern : List Tok :=
  [.lit (str "gnu lesser general public license"), .star anyChar,
   .lit (str "version 3")]

/-- Regex `/GNU AFFERO GENERAL PUBLIC LICENSE[\s\S]*?Version 3/i`. -/
def agpl3Pattern : List Tok :=
  [.lit (str "gnu affero general public license"), .star anyChar,
   .lit (str "version 3")]

/-- Regex `/Mozilla Public License[,\s]+Version 2\.0/i`. -/
def mplPattern : List Tok :=
  [.lit (str "mozilla public license"), .plus wsOrComma, .lit (str "version 2.0")]

/-- Regex `/This is free and unencumbered software released into the public domain/i`. -/
def unlicensePattern : List Tok :=
  [.lit (str "this is free and unencumbered software released into the public domain")]

/-- Regex `/CC0 1\.0 Universal/i`. -/
def cc0Pattern : List Tok := [.lit (str "cc0 1.0 universal")]

/-- Regex `/DO WHAT THE FUCK YOU WANT TO PUBLIC LICENSE/i`. -/
def wtfplPattern : List Tok :=
  [.lit (str "do what the fuck you want to public license")]

/-- Regex `/zlib License/i`. -/
def zlibPattern : List Tok := [.lit (str "zlib license")]

/-- Regex `/Boost Software License[,\s-]+Version 1\.0/i`. -/
def bslPattern : List Tok :=
  [.lit (str "boost software license"), .plus wsCommaDash, .lit (str "version 1.0")]

/-- Regex `/Eclipse Public License[,\s-]+v(ersion)?\s*2\.0/i`. -/
def eplPattern : List Tok :=
  [.lit (str "eclipse public license"), .plus wsCommaDash, .lit (str "v"),
   .alt (str "ersion") (str ""), .star isWs, .lit (str "2.0")]

/-- Detection confidence levels. -/
inductive Confidence where
  | high
  | medium
  | low
deriving DecidableEq

/-- One entry of `LICENSE_PATTERNS`. -/
structure LicensePattern where
  pattern : List Tok
  license : Str
  confidence : Confidence

/-- `LICENSE_PATTERNS` from `config.ts`, in source order. -/
def LICENSE_PATTERNS : List LicensePattern :=
  [⟨mitPattern1, str "MIT", .high⟩,
   ⟨mitPattern2, str "MIT", .high⟩,
   ⟨apachePattern1, str "Apache-2.0", .high⟩,
   ⟨apachePattern2, str "Apache-2.0", .medium⟩,
   ⟨bsd3HeaderPattern, str "BSD-3-Clause", .high⟩,
   ⟨bsd2ContentPattern, str "BSD-2-Clause", .high⟩,
   ⟨bsd3ContentPattern, str "BSD-3-Clause", .high⟩,
   ⟨iscPattern1, str "ISC", .high⟩,
   ⟨iscPattern2, str "ISC", .medium⟩,
   ⟨gpl2Pattern, str "GPL-2.0-only", .high⟩,
   ⟨gpl3Pattern, str "GPL-3.0-only", .high⟩,
   ⟨lgpl21Pattern, str "LGPL-2.1-only", .high⟩,
   ⟨lgpl3Pattern, str "LGPL-3.0-only", .high⟩,
   ⟨agpl3Pattern, str "AGPL-3.0-only", .high⟩,
   ⟨mplPattern, str "MPL-2.0", .high⟩,
   ⟨unlicensePattern, str "Unlicense", .high⟩,
   ⟨cc0Pattern, str "CC0-1.0", .high⟩,
   ⟨wtfplPattern, str "WTFPL", .high⟩,
   ⟨zlibPattern, str "Zlib", .high⟩,
   ⟨bslPattern, str "BSL-1.0", .high⟩,
   ⟨eplPattern, str "EPL-2.0", .high⟩]

/-- JavaScript word characters (for the `\b` boundaries of the fallback
scans in `detectFromText`). -/
def wordChar (c : Char) : Bool :=
  ('a' ≤ c && c ≤ 'z') || ('A' ≤ c && c ≤ 'Z') || ('0' ≤ c && c ≤ '9') || c = '_'

/-- A `\b` boundary holds before the match when the match is at the start of
the text or the preceding character is not a word character (every scanned
identifier begins with a word character). -/
def boundaryBefore : Option Char → Bool
  | none => true
  | some c => !wordChar c

/-- A `\b` boundary holds after the match when the match ends the text or the
following character is not a word character (every scanned identifier ends
with a word character). -/
def boundaryAfter : Str → Bool
  | [] => true
  | c :: _ => !wordChar c

/-- Scan for a whole-word occurrence of `needle`; `prev` is the character
just before the current position. -/
def wordOccursAux (needle : Str) : Option Char → Str → Bool
  | prev, [] =>
      boundaryBefore prev && needle.isPrefixOf ([] : Str) &&
      boundaryAfter (([] : Str).drop needle.length)
  | prev, c :: cs =>
      (boundaryBefore prev && needle.isPrefixOf (c :: cs) &&
       boundaryAfter ((c :: cs).drop needle.length)) ||
      wordOccursAux needle (some c) cs

/-- Model of testing the regex built in `detectFromText` as
`new RegExp("\\b" + escaped + "\\b", "i")`: a case-insensitive whole-word
occurrence (both arguments are passed lowercased). -/
def wordOccurs (needle cs : Str) : Bool := wordOccursAux needle none cs

/-- `detectFromText` from `detect.ts`: first matching entry of the ordered
signature list, else the first canonical identifier occurring as a whole
word (confidence low), else the first alias-table key occurring as a whole
word, mapped through the table (confidence low), else no detection. -/
def detectFromText (text : Str) : Option (Str × Confidence) :=
  let cs := lower text
  match LICENSE_PATTERNS.find? (fun p => searchToks p.pattern cs) with
  | some p => some (p.license, p.confidence)
  | none =>
    match SPDX_LICENSE_IDS.find? (fun spdxId => wordOccurs (lower spdxId) cs) with
    | some spdxId => some (spdxId, .low)
    | none =>
      match LICENSE_ALIASES.find? (fun kv => wordOccurs (lower kv.1) cs) with
      | some kv => some (kv.2, .low)
      | none => none

/-! ## Result envelope and input shapes (`types.ts`)

Inputs are modelled after the zod schemas: optional fields are `Option`, and
the structural constraints the schemas impose (`min(1)` on strings and
arrays, the `refine` on the detect input) become the explicit validity
predicates below. A tool invocation either fails validation — returning an
`INVALID_INPUT` error before any processing — or returns `ok` with its data
and the `meta.warnings` field (`undefined` when the warning list is empty,
modelled as `none`). -/

/-- Success/error envelope: `ok` carries the data and `meta.warnings`;
`error` carries the error code. -/
inductive ApiResult (α : Type) where
  | ok (data : α) (metaWarnings : Option (List Str))
  | error (code : Str)
deriving DecidableEq

/-- One entry of the `dependencies` input array of `detect_licenses`. -/
structure DependencyInput where
  name : Str
  version : Option Str
  license_text : Option Str
  license_id : Option Str
deriving DecidableEq

/-- One entry of the `files` input array of `detect_licenses`. -/
structure FileInput where
  filename : Str
  content : Str
deriving DecidableEq

/-- Input of `detect_licenses`. -/
structure DetectLicensesInput where
  dependencies : Option (List DependencyInput)
  files : Option (List FileInput)
deriving DecidableEq

/-- One detected license record. -/
structure DetectedLicense where
  name : Option Str
  version : Option Str
  license_id : Str
  confidence : Confidence
  source : Str
deriving DecidableEq

/-- `DependencyInputSchema`: `name` must be nonempty; the other fields are
optional and unconstrained. -/
def dependencyInputOk (d : DependencyInput) : Bool := !d.name.isEmpty

/-- `FileInputSchema`: `filename` and `content` must be nonempty. -/
def fileInputOk (f : FileInput) : Bool := !f.filename.isEmpty && !f.content.isEmpty

/-- `DetectLicensesInputSchema`: the field constraints, plus the refinement
`data.dependencies || data.files`. In JavaScript an array value is truthy
even when empty, so the refinement only requires that at least one of the
two fields is present — a present-but-empty array passes. -/
def detectLicensesInputOk (i : DetectLicensesInput) : Bool :=
  (i.dependencies.getD []).all dependencyInputOk &&
  (i.files.getD []).all fileInputOk &&
  (i.dependencies.isSome || i.files.isSome)

/-- JavaScript truthiness for an optional string field: `undefined` and the
empty string are both falsy (`if (dep.license_id)` and alike). -/
def optTruthy : Option Str → Option Str
  | some s => if s.isEmpty then none else some s
  | none => none

/-- The `${dep.version ? `@` + dep.version : empty}` fragment of the warning
messages. -/
def versionSuffix (version : Option Str) : Str :=
  match optTruthy version with
  | some v => str "@" ++ v
  | none => []

/-- The `${name ?? fallback}` fragment used by warning messages in
`compat.ts` (nullish coalescing: only a missing name falls back). -/
def nameOrUnnamed (name : Option Str) : Str :=
  match name with
  | some n => n
  | none => str "unnamed package"

/-- Loop body of the `dependencies` loop of `detectLicenses`: the produced
record and the warnings it pushes. -/
def processDependency (dep : DependencyInput) : DetectedLicense × List Str :=
  match optTruthy dep.license_id with
  | some lid =>
    let normalizedId := normalizeLicenseId lid
    (⟨some dep.name, dep.version, normalizedId,
      if SPDX_LICENSE_IDS.contains normalizedId then .high else .medium,
      str "dependency_metadata"⟩, [])
  | none =>
    match optTruthy dep.license_text with
    | some txt =>
      match detectFromText txt with
      | some d =>
        (⟨some dep.name, dep.version, d.1, d.2, str "license_text_analysis"⟩, [])
      | none =>
        (⟨some dep.name, dep.version, str "UNKNOWN", .low, str "license_text_analysis"⟩,
         [str "Could not detect license for " ++ dep.name ++ versionSuffix dep.version ++
          str " from provided text"])
    | none =>
      (⟨some dep.name, dep.version, str "UNKNOWN", .low, str "no_data"⟩,
       [str "No license information provided for " ++ dep.name ++ versionSuffix dep.version])

/-- Loop body of the `files` loop of `detectLicenses`. -/
def processFile (file : FileInput) : DetectedLicense × List Str :=
  match detectFromText file.content with
  | some d => (⟨some file.filename, none, d.1, d.2, str "file:" ++ file.filename⟩, [])
  | none =>
    (⟨some file.filename, none, str "UNKNOWN", .low, str "file:" ++ file.filename⟩,
     [str "Could not detect license from file: " ++ file.filename])

/-- Run a per-item step over a list, collecting the produced records and the
warnings in loop order. -/
def collectResults {α β : Type} (step : α → β × List Str) : List α → List β × List Str
  | [] => ([], [])
  | x :: xs =>
    let r := step x
    let rest := collectResults step xs
    (r.1 :: rest.1, r.2 ++ rest.2)

/-- `detectLicenses` from `detect.ts`: validate, then process the
dependencies and then the files, returning the detected records and any
warnings (in `meta.warnings`, omitted when empty). -/
def detectLicenses (input : DetectLicensesInput) : ApiResult (List DetectedLicense) :=
  if detectLicensesInputOk input then
    let depResults := collectResults processDependency (input.dependencies.getD [])
    let fileResults := collectResults processFile (input.files.getD [])
    let warnings := depResults.2 ++ fileResults.2
    .ok (depResults.1 ++ fileResults.1) (if warnings.isEmpty then none else some warnings)
  else
    .error (str "INVALID_INPUT")

/-! ## Compatibility checking (`compat.ts`) -/

/-- One entry of the `licenses` input array of `check_compatibility`. -/
structure LicenseInfo where
  name : Option Str
  license_id : Str
deriving DecidableEq

/-- The `policy` input of `check_compatibility`. -/
structure CompatibilityPolicy where
  allowed : Option (List Str)
  denied : Option (List Str)
  copyleft_ok : Option Bool
  required_attribution : Option (List Str)
deriving DecidableEq

/-- A policy violation record. -/
structure Violation where
  name : Option Str
  license_id : Str
  reason : Str
deriving DecidableEq

/-- Output data of `check_compatibility`. -/
structure CheckCompatibilityOutput where
  compatible : Bool
  violations : List Violation
  warnings : List Str
deriving DecidableEq

/-- Input of `check_compatibility`. -/
structure CheckCompatibilityInput where
  licenses : List LicenseInfo
  policy : CompatibilityPolicy
deriving DecidableEq

/-- `CheckCompatibilityInputSchema`: at least one license, each with a
nonempty `license_id`. -/
def checkCompatibilityInputOk (i : CheckCompatibilityInput) : Bool :=
  !i.licenses.isEmpty && i.licenses.all (fun l => !l.license_id.isEmpty)

/-- `isCopyleft` from `compat.ts`. -/
def isCopyleft (licenseId : Str) : Bool := COPYLEFT_LICENSES.contains licenseId

/-- `requiresAttribution` from `compat.ts`. -/
def requiresAttribution (licenseId : Str) : Bool :=
  ATTRIBUTION_REQUIRED_LICENSES.contains licenseId

/-- `normalizeLicenseForComparison` from `compat.ts`: the identifier itself,
plus — for the GPL/LGPL/AGPL prefixes — one family variant. The source
guards the last branch with the negations of the two previous `endsWith`
tests, which are already known false there, so it is a plain `else`.
`replace` rewrites the first occurrence of its needle, as in JavaScript. -/
def normalizeLicenseForComparison (licenseId : Str) : List Str :=
  if (str "GPL-").isPrefixOf licenseId || (str "LGPL-").isPrefixOf licenseId ||
     (str "AGPL-").isPrefixOf licenseId then
    if (str "-only").isSuffixOf licenseId then
      [licenseId, replaceFirst licenseId (str "-only") []]
    else if (str "-or-later").isSuffixOf licenseId then
      [licenseId, replaceFirst licenseId (str "-or-later") (str "+")]
    else
      [licenseId, licenseId ++ str "-only"]
  else
    [licenseId]

/-- `matchesLicenseList` from `compat.ts`: some variation of the identifier
equals some list entry, compared after `toUpperCase` on both sides. -/
def matchesLicenseList (licenseId : Str) (list : List Str) : Bool :=
  (normalizeLicenseForComparison licenseId).any (fun v =>
    list.any (fun l => upper l == upper v))

/-- The `policy.allowed && policy.allowed.length > 0` guard: an allow-list is
present and nonempty (a present-but-empty array is truthy in JavaScript but
fails the length test). -/
def allowedNonempty (policy : CompatibilityPolicy) : Bool :=
  match policy.allowed with
  | some l => !l.isEmpty
  | none => false

/-- Reason string of an UNKNOWN-license violation. -/
def unknownReason : Str := str "Unknown license cannot be verified against allowed list"

/-- Reason string of a deny-list violation. -/
def deniedReason (licenseId : Str) : Str :=
  str "License \x22" ++ (licenseId ++ str "\x22 is in the denied list")

/-- Reason string of an allow-list violation. -/
def notAllowedReason (licenseId : Str) : Str :=
  str "License \x22" ++ (licenseId ++ str "\x22 is not in the allowed list")

/-- Reason string of a copyleft violation. -/
def copyleftReason (licenseId : Str) : Str :=
  str "License \x22" ++
    (licenseId ++ str "\x22 is a copyleft license and copyleft_ok is false")

/-- Warning for an UNKNOWN license when no (nonempty) allow-list is set. -/
def unknownWarning (name : Option Str) : Str :=
  str "License for " ++ nameOrUnnamed name ++ str " is UNKNOWN - manual review recommended"

/-- Attribution advisory warning. -/
def attributionWarning (licenseId : Str) (name : Option Str) : Str :=
  str "License \x22" ++ (licenseId ++ str "\x22 for ") ++ nameOrUnnamed name ++
  str " requires attribution"

/-- Loop body of `checkCompatibility`: for one license, the violation it
records (if any) and the warnings it pushes. Each `violations.push` in the
source is followed by `continue`, so a license yields at most one violation
and the rules apply in a fixed order: UNKNOWN check, deny-list, allow-list,
copyleft restriction, attribution advisory. -/
def checkOneLicense (policy : CompatibilityPolicy) (license : LicenseInfo) :
    Option Violation × List Str :=
  let licenseId := license.license_id
  let name := license.name
  if licenseId == str "UNKNOWN" then
    if allowedNonempty policy then
      (some ⟨name, licenseId, unknownReason⟩, [])
    else
      (none, [unknownWarning name])
  else if (policy.denied.isSome && matchesLicenseList licenseId (policy.denied.getD [])) then
    (some ⟨name, licenseId, deniedReason licenseId⟩, [])
  else if (allowedNonempty policy && !matchesLicenseList licenseId (policy.allowed.getD [])) then
    (some ⟨name, licenseId, notAllowedReason licenseId⟩, [])
  else if (policy.copyleft_ok == some false && isCopyleft licenseId) then
    (some ⟨name, licenseId, copyleftReason licenseId⟩, [])
  else if requiresAttribution licenseId then
    (none, [attributionWarning licenseId name])
  else
    (none, [])

/-- The `for (const license of licenses)` loop of `checkCompatibility`:
violations and warnings accumulated in order. -/
def runChecks (policy : CompatibilityPolicy) : List LicenseInfo → List Violation × List Str
  | [] => ([], [])
  | l :: ls =>
    let r := checkOneLicense policy l
    let rest := runChecks policy ls
    (r.1.toList ++ rest.1, r.2 ++ rest.2)

/-- `checkCompatibility` from `compat.ts`: validate, evaluate every license
against the policy, and report `compatible = (violations.length === 0)`
together with the violations and warnings. -/
def checkCompatibility (input : CheckCompatibilityInput) :
    ApiResult CheckCompatibilityOutput :=
  if checkCompatibilityInputOk input then
    let r := runChecks input.policy input.licenses
    .ok ⟨r.1.isEmpty, r.1, r.2⟩ (if r.2.isEmpty then none else some r.2)
  else
    .error (str "INVALID_INPUT")

/-- Violations of a successful `check_compatibility` run (`none` on a
validation error); used to state results compactly. -/
def okViolations : ApiResult CheckCompatibilityOutput → Option (List Violation)
  | .ok d _ => some d.violations
  | .error _ => none

/-- The body of a 3-clause BSD license header: the standard clauses 1 to 3,
including the Neither-the-name clause, without the optional
`BSD 3-Clause License` title line. -/
def bsd3BodyText : Str :=
  str "Redistribution and use in source and binary forms, with or without modification, are permitted provided that the following conditions are met: 1. Redistributions of source code must retain the above copyright notice. 2. Redistributions in binary form must reproduce the above copyright notice. 3. Neither the name of the copyright holder nor the names of its contributors may be used to endorse or promote products derived from this software."

/-! ## Helper lemmas -/

theorem trimLeft_head (l : Str) :
    trimLeft l = [] ∨ ∃ c cs, trimLeft l = c :: cs ∧ isWs c = false := by
  induction l with
  | nil => exact Or.inl rfl
  | cons c cs ih =>
    by_cases h : isWs c = true
    · simpa [trimLeft, List.dropWhile_cons, h] using ih
    · exact Or.inr ⟨c, cs, by simp [trimLeft, List.dropWhile_cons, h], by simpa using h⟩

theorem trimRight_nil : trimRight [] = [] := rfl

theorem trimRight_cons (c : Char) (cs : Str) :
    trimRight (c :: cs) =
      match trimRight cs with
      | [] => if isWs c then [] else [c]
      | r => c :: r := rfl

theorem trimRight_cons_shape (c : Char) (cs : Str) :
    trimRight (c :: cs) = [] ∨ ∃ r, trimRight (c :: cs) = c :: r := by
  cases h : trimRight cs with
  | nil =>
    by_cases hw : isWs c = true
    · exact Or.inl (by rw [trimRight_cons, h]; simp [hw])
    · exact Or.inr ⟨[], by rw [trimRight_cons, h]; simp [hw]⟩
  | cons a b => exact Or.inr ⟨a :: b, by rw [trimRight_cons, h]⟩

theorem trimRight_trimRight (l : Str) : trimRight (trimRight l) = trimRight l := by
  induction l with
  | nil => rfl
  | cons c cs ih =>
    cases h : trimRight cs with
    | nil =>
      by_cases hw : isWs c = true
      · simp [trimRight_cons, trimRight_nil, h, hw]
      · simp [trimRight_cons, trimRight_nil, h, hw]
    | cons a b =>
      rw [h] at ih
      have e : trimRight (c :: cs) = c :: a :: b := by rw [trimRight_cons, h]
      rw [e, trimRight_cons, ih]

theorem trimLeft_of_head_not_ws (c : Char) (cs : Str) (h : isWs c = false) :
    trimLeft (c :: cs) = c :: cs := by
  simp [trimLeft, List.dropWhile_cons, h]

/-- `String.prototype.trim` is idempotent. -/
theorem trim_trim (l : Str) : trim (trim l) = trim l := by
  show trimRight (trimLeft (trimRight (trimLeft l))) = trimRight (trimLeft l)
  rcases trimLeft_head l with h | ⟨c, cs, hm, hw⟩
  · rw [h, trimRight_nil, show trimLeft ([] : Str) = [] from rfl, trimRight_nil]
  · rw [hm]
    rcases trimRight_cons_shape c cs with h2 | ⟨r, h2⟩
    · rw [h2, show trimLeft ([] : Str) = [] from rfl, trimRight_nil]
    · rw [h2, trimLeft_of_head_not_ws c r hw, ← h2, trimRight_trimRight]

/-- Every alias value normalizes to itself (finite check over the table). -/
theorem aliasValue_normalize_fixed :
    ∀ kv ∈ LICENSE_ALIASES, normalizeLicenseId kv.2 = kv.2 := by decide

/-- Every canonical identifier normalizes to itself (finite check). -/
theorem spdx_normalize_fixed :
    ∀ s ∈ SPDX_LICENSE_IDS, normalizeLicenseId s = s := by decide

theorem replaceFirst_of_firstOccIdx (pat rep : Str) (hp : pat ≠ []) :
    ∀ (s : Str) (i : Nat), firstOccIdx pat s = some i →
      replaceFirst s pat rep = s.take i ++ rep ++ s.drop (i + pat.length) := by
  intro s
  induction s with
  | nil =>
    intro i h
    obtain ⟨p, ps, rfl⟩ : ∃ p ps, pat = p :: ps := by
      cases pat with
      | nil => exact absurd rfl hp
      | cons p ps => exact ⟨p, ps, rfl⟩
    simp [firstOccIdx, List.isPrefixOf] at h
  | cons c cs ih =>
    intro i h
    by_cases hpre : pat.isPrefixOf (c :: cs) = true
    · have hi : i = 0 := by
        simp only [firstOccIdx, hpre, if_true] at h
        exact (Option.some_inj.mp h).symm
      subst hi
      simp [replaceFirst, hpre, List.take_zero, List.nil_append, Nat.zero_add]
    · have h2 : (firstOccIdx pat cs).map (· + 1) = some i := by
        simpa only [firstOccIdx, hpre, if_false, Bool.false_eq_true] using h
      obtain ⟨j, hj, hji⟩ := Option.map_eq_some'.mp h2
      subst hji
      have hr : replaceFirst (c :: cs) pat rep = c :: replaceFirst cs pat rep := by
        simp [replaceFirst, hpre]
      rw [hr, ih j hj, List.take_succ_cons,
          show j + 1 + pat.length = (j + pat.length) + 1 from by omega,
          List.drop_succ_cons, List.cons_append, List.cons_append]

theorem normalizeLicenseForComparison_head (licenseId : Str) :
    ∃ rest, normalizeLicenseForComparison licenseId = licenseId :: rest := by
  unfold normalizeLicenseForComparison
  split_ifs <;> exact ⟨_, rfl⟩

theorem matchesLicenseList_of_variation (licenseId v : Str)
    (hv : v ∈ normalizeLicenseForComparison licenseId) (list : List Str) (l : Str)
    (hl : l ∈ list) (he : upper l = upper v) : matchesLicenseList licenseId list = true := by
  unfold matchesLicenseList
  rw [List.any_eq_true]
  refine ⟨v, hv, ?_⟩
  rw [List.any_eq_true]
  exact ⟨l, hl, by simp [he]⟩

theorem matchesLicenseList_nil (licenseId : Str) :
    matchesLicenseList licenseId [] = false := by
  simp [matchesLicenseList]

/-- The own-key normalization model is idempotent on every string. The
program satisfies this only away from the keys inherited from
`Object.prototype`, where it agrees with this model (see the C6 analysis
below): at an inherited key the program returns a non-string and
re-normalizing throws. -/
theorem normalizeLicenseId_idempotent (x : Str) :
    normalizeLicenseId (normalizeLicenseId x) = normalizeLicenseId x := by
  cases h1 : aliasLookup (trim x) with
  | some v =>
    have hx : normalizeLicenseId x = v := by
      simp only [normalizeLicenseId, h1]
    rw [hx]
    obtain ⟨kv, hfind, hsnd⟩ := Option.map_eq_some'.mp h1
    have hmem := List.mem_of_find?_eq_some hfind
    rw [← hsnd]
    exact aliasValue_normalize_fixed kv hmem
  | none =>
    cases h2 : SPDX_LICENSE_IDS.find? (fun spdxId => upper spdxId == upper (trim x)) with
    | some s =>
      have hx : normalizeLicenseId x = s := by
        simp only [normalizeLicenseId, h1, h2]
      rw [hx]
      exact spdx_normalize_fixed s (List.mem_of_find?_eq_some h2)
    | none =>
      have hx : normalizeLicenseId x = trim x := by
        simp only [normalizeLicenseId, h1, h2]
      rw [hx]
      simp only [normalizeLicenseId, trim_trim, h1, h2]

/-- Finite check: no alias value is an inherited `Object.prototype` key, and
each is a fixed point of the full model. -/
theorem aliasValue_js_fixed :
    ∀ kv ∈ LICENSE_ALIASES,
      normalizeLicenseIdJs (.jsString kv.2) = some (.jsString kv.2) := by decide

/-- Finite check: no canonical identifier is an inherited `Object.prototype`
key, and each is a fixed point of the full model. -/
theorem spdx_js_fixed :
    ∀ s ∈ SPDX_LICENSE_IDS,
      normalizeLicenseIdJs (.jsString s) = some (.jsString s) := by decide

/-- Away from the inherited `Object.prototype` keys, the full model agrees
with the own-key model `normalizeLicenseId` and normalization is idempotent
there. -/
theorem normalizeLicenseIdJs_idempotent_off_proto (x : Str)
    (h : OBJECT_PROTOTYPE_KEYS.contains (trim x) = false) :
    normalizeLicenseIdJs (.jsString x) = some (.jsString (normalizeLicenseId x)) ∧
    (normalizeLicenseIdJs (.jsString x)).bind normalizeLicenseIdJs =
      normalizeLicenseIdJs (.jsString x) := by
  have hm : trim x ∉ OBJECT_PROTOTYPE_KEYS := by simpa using h
  have hbr : normalizeLicenseIdJs (.jsString x) =
      some (.jsString (normalizeLicenseId x)) := by
    cases h1 : aliasLookup (trim x) with
    | some v => simp only [normalizeLicenseIdJs, normalizeLicenseId, h1]
    | none =>
      cases h2 : SPDX_LICENSE_IDS.find? (fun spdxId => upper spdxId == upper (trim x)) with
      | some s => simp [normalizeLicenseIdJs, normalizeLicenseId, h1, h2, hm]
      | none => simp [normalizeLicenseIdJs, normalizeLicenseId, h1, h2, hm]
  refine ⟨hbr, ?_⟩
  rw [hbr]
  show normalizeLicenseIdJs (.jsString (normalizeLicenseId x)) =
    some (.jsString (normalizeLicenseId x))
  cases h1 : aliasLookup (trim x) with
  | some v =>
    have hNx : normalizeLicenseId x = v := by simp only [normalizeLicenseId, h1]
    rw [hNx]
    obtain ⟨kv, hfind, hsnd⟩ := Option.map_eq_some'.mp h1
    rw [← hsnd]
    exact aliasValue_js_fixed kv (List.mem_of_find?_eq_some hfind)
  | none =>
    cases h2 : SPDX_LICENSE_IDS.find? (fun spdxId => upper spdxId == upper (trim x)) with
    | some s =>
      have hNx : normalizeLicenseId x = s := by simp only [normalizeLicenseId, h1, h2]
      rw [hNx]
      exact spdx_js_fixed s (List.mem_of_find?_eq_some h2)
    | none =>
      have hNx : normalizeLicenseId x = trim x := by simp only [normalizeLicenseId, h1, h2]
      rw [hNx]
      simp [normalizeLicenseIdJs, trim_trim, h1, h2, hm]

/-- **C6.** Code bug: normalization is not idempotent in the program. At the
inherited key `toString` the membership test `trimmed in LICENSE_ALIASES`
answers true through the prototype chain, so the first normalization
returns the inherited `Object.prototype` member — a non-string, despite the
declared string return type — and normalizing that result throws a
TypeError at `licenseId.trim()` instead of returning the same value. -/
theorem normalizeLicenseIdJs_toString_bug :
    normalizeLicenseIdJs (.jsString (str "toString")) =
      some (.protoMember (str "toString")) ∧
    (normalizeLicenseIdJs (.jsString (str "toString"))).bind normalizeLicenseIdJs =
      none ∧
    (normalizeLicenseIdJs (.jsString (str "toString"))).bind normalizeLicenseIdJs ≠
      normalizeLicenseIdJs (.jsString (str "toString")) :=
  ⟨by decide, by decide, by decide⟩

/-- **C3.** In the deny-list/allow-list membership check of
`checkCompatibility` (`matchesLicenseList`), comparison of an identifier
with a policy list entry is case-insensitive; and for identifiers starting
with `GPL-`, `LGPL-` or `AGPL-`: an identifier ending in `-only` (with the
suffix as the first `-only` occurrence, as in every real identifier) also
matches its base form without the suffix; an identifier ending in
`-or-later` likewise also matches the base form with a trailing `+`; and a
bare family identifier (neither suffix) also matches its `-only` form —
so `denied: [GPL-3.0]` flags a detected `GPL-3.0-only`, and vice versa. -/
theorem matchesLicenseList_spec :
    (∀ (licenseId : Str) (list : List Str) (l : Str), l ∈ list →
        upper l = upper licenseId → matchesLicenseList licenseId list = true) ∧
    (∀ (licenseId : Str) (list : List Str) (l : Str),
        ((str "GPL-").isPrefixOf licenseId || (str "LGPL-").isPrefixOf licenseId ||
          (str "AGPL-").isPrefixOf licenseId) = true →
        (str "-only").isSuffixOf licenseId = true →
        firstOccIdx (str "-only") licenseId = some (licenseId.length - 5) →
        l ∈ list → upper l = upper (licenseId.take (licenseId.length - 5)) →
        matchesLicenseList licenseId list = true) ∧
    (∀ (licenseId : Str) (list : List Str) (l : Str),
        ((str "GPL-").isPrefixOf licenseId || (str "LGPL-").isPrefixOf licenseId ||
          (str "AGPL-").isPrefixOf licenseId) = true →
        (str "-or-later").isSuffixOf licenseId = true →
        firstOccIdx (str "-or-later") licenseId = some (licenseId.length - 9) →
        l ∈ list → upper l = upper (licenseId.take (licenseId.length - 9) ++ str "+") →
        matchesLicenseList licenseId list = true) ∧
    (∀ (licenseId : Str) (list : List Str) (l : Str),
        ((str "GPL-").isPrefixOf licenseId || (str "LGPL-").isPrefixOf licenseId ||
          (str "AGPL-").isPrefixOf licenseId) = true →
        (str "-only").isSuffixOf licenseId = false →
        (str "-or-later").isSuffixOf licenseId = false →
        l ∈ list → upper l = upper (licenseId ++ str "-only") →
        matchesLicenseList licenseId list = true) := by
  refine ⟨?_, ?_, ?_, ?_⟩
  · intro licenseId list l hl he
    obtain ⟨rest, hrest⟩ := normalizeLicenseForComparison_head licenseId
    refine matchesLicenseList_of_variation licenseId licenseId ?_ list l hl he
    rw [hrest]
    exact List.mem_cons_self _ _
  · intro licenseId list l hfam hsuf hfirst hl he
    have hb := replaceFirst_of_firstOccIdx (str "-only") [] (by decide) licenseId
      (licenseId.length - 5) hfirst
    have hlen : (str "-only").length ≤ licenseId.length :=
      (List.isSuffixOf_iff_suffix.mp hsuf).length_le
    have hlen5 : (str "-only").length = 5 := rfl
    have hv : replaceFirst licenseId (str "-only") [] =
        licenseId.take (licenseId.length - 5) := by
      rw [hb, show licenseId.length - 5 + (str "-only").length = licenseId.length from by
            rw [hlen5]; rw [hlen5] at hlen; omega,
          List.drop_length]
      simp
    refine matchesLicenseList_of_variation licenseId
      (licenseId.take (licenseId.length - 5)) ?_ list l hl he
    unfold normalizeLicenseForComparison
    simp only [hfam, hsuf, if_true, hv]
    simp
  · intro licenseId list l hfam hsuf hfirst hl he
    have honly : (str "-only").isSuffixOf licenseId = false := by
      cases hx : (str "-only").isSuffixOf licenseId with
      | false => rfl
      | true =>
        exfalso
        have hs1 := List.isSuffixOf_iff_suffix.mp hx
        have hs2 := List.isSuffixOf_iff_suffix.mp hsuf
        rcases List.suffix_or_suffix_of_suffix hs1 hs2 with h | h
        · exact absurd h (by decide)
        · exact absurd h (by decide)
    have hb := replaceFirst_of_firstOccIdx (str "-or-later") (str "+") (by decide) licenseId
      (licenseId.length - 9) hfirst
    have hlen : (str "-or-later").length ≤ licenseId.length :=
      (List.isSuffixOf_iff_suffix.mp hsuf).length_le
    have hlen9 : (str "-or-later").length = 9 := rfl
    have hv : replaceFirst licenseId (str "-or-later") (str "+") =
        licenseId.take (licenseId.length - 9) ++ str "+" := by
      rw [hb, show licenseId.length - 9 + (str "-or-later").length = licenseId.length from by
            rw [hlen9]; rw [hlen9] at hlen; omega,
          List.drop_length]
      simp
    refine matchesLicenseList_of_variation licenseId
      (licenseId.take (licenseId.length - 9) ++ str "+") ?_ list l hl he
    unfold normalizeLicenseForComparison
    simp only [hfam, honly, hsuf, if_true, Bool.false_eq_true, if_false, hv]
    simp
  · intro licenseId list l hfam honly horlater hl he
    refine matchesLicenseList_of_variation licenseId (licenseId ++ str "-only") ?_ list l hl he
    unfold normalizeLicenseForComparison
    simp only [hfam, honly, horlater, if_true, Bool.false_eq_true, if_false]
    simp

/-- Witness for C3: concrete instances, including the `denied: [GPL-3.0]`
flags `GPL-3.0-only` example and its converse. -/
theorem matchesLicenseList_spec_witness :
    matchesLicenseList (str "mit") [str "MIT"] = true ∧
    matchesLicenseList (str "GPL-3.0-only") [str "GPL-3.0"] = true ∧
    matchesLicenseList (str "GPL-2.0-or-later") [str "GPL-2.0+"] = true ∧
    matchesLicenseList (str "GPL-3.0") [str "GPL-3.0-only"] = true :=
  ⟨matchesLicenseList_spec.1 (str "mit") [str "MIT"] (str "MIT")
      (List.mem_cons_self _ _) (by decide),
   matchesLicenseList_spec.2.1 (str "GPL-3.0-only") [str "GPL-3.0"] (str "GPL-3.0")
      (by decide) (by decide) (by decide) (List.mem_cons_self _ _) (by decide),
   matchesLicenseList_spec.2.2.1 (str "GPL-2.0-or-later") [str "GPL-2.0+"] (str "GPL-2.0+")
      (by decide) (by decide) (by decide) (List.mem_cons_self _ _) (by decide),
   matchesLicenseList_spec.2.2.2 (str "GPL-3.0") [str "GPL-3.0-only"] (str "GPL-3.0-only")
      (by decide) (by decide) (by decide) (List.mem_cons_self _ _) (by decide)⟩

theorem runChecks_violations_sub (policy : CompatibilityPolicy) (ls : List LicenseInfo) :
    ∀ v ∈ (runChecks policy ls).1, ∃ l ∈ ls, (checkOneLicense policy l).1 = some v := by
  induction ls with
  | nil => intro v hv; simp [runChecks] at hv
  | cons a as ih =>
    intro v hv
    simp only [runChecks, List.mem_append] at hv
    rcases hv with h | h
    · refine ⟨a, List.mem_cons_self _ _, ?_⟩
      cases hc : (checkOneLicense policy a).1 with
      | none => rw [hc] at h; simp at h
      | some w =>
        rw [hc] at h
        simp only [Option.toList_some, List.mem_singleton] at h
        rw [h]
    · obtain ⟨l, hl, hc⟩ := ih v h
      exact ⟨l, List.mem_cons_of_mem _ hl, hc⟩

theorem runChecks_violations_mem (policy : CompatibilityPolicy) (ls : List LicenseInfo)
    (l : LicenseInfo) (hl : l ∈ ls) (v : Violation)
    (hv : (checkOneLicense policy l).1 = some v) : v ∈ (runChecks policy ls).1 := by
  induction ls with
  | nil => cases hl
  | cons a as ih =>
    rcases List.mem_cons.mp hl with rfl | h
    · simp [runChecks, hv]
    · simp only [runChecks, List.mem_append]
      exact Or.inr (ih h)

theorem runChecks_warnings_mem (policy : CompatibilityPolicy) (ls : List LicenseInfo)
    (l : LicenseInfo) (hl : l ∈ ls) (w : Str)
    (hw : w ∈ (checkOneLicense policy l).2) : w ∈ (runChecks policy ls).2 := by
  induction ls with
  | nil => cases hl
  | cons a as ih =>
    rcases List.mem_cons.mp hl with rfl | h
    · simp only [runChecks, List.mem_append]
      exact Or.inl hw
    · simp only [runChecks, List.mem_append]
      exact Or.inr (ih h)

theorem runChecks_length (policy : CompatibilityPolicy) (ls : List LicenseInfo) :
    (runChecks policy ls).1.length ≤ ls.length := by
  induction ls with
  | nil => simp [runChecks]
  | cons a as ih =>
    simp only [runChecks, List.length_append, List.length_cons]
    have h1 : (checkOneLicense policy a).1.toList.length ≤ 1 := by
      cases (checkOneLicense policy a).1 <;> simp
    omega

theorem runChecks_congr (p q : CompatibilityPolicy) (ls : List LicenseInfo)
    (h : ∀ l, checkOneLicense p l = checkOneLicense q l) :
    runChecks p ls = runChecks q ls := by
  induction ls with
  | nil => rfl
  | cons a as ih => simp only [runChecks, h a, ih]

theorem checkCompatibility_ok_inv (input : CheckCompatibilityInput)
    (out : CheckCompatibilityOutput) (m : Option (List Str))
    (h : checkCompatibility input = .ok out m) :
    out = ⟨(runChecks input.policy input.licenses).1.isEmpty,
           (runChecks input.policy input.licenses).1,
           (runChecks input.policy input.licenses).2⟩ := by
  unfold checkCompatibility at h
  split_ifs at h
  injection h with h1 h2
  exact h1.symm

theorem checkOneLicense_fields (policy : CompatibilityPolicy) (l : LicenseInfo)
    (v : Violation) (hv : (checkOneLicense policy l).1 = some v) :
    v.name = l.name ∧ v.license_id = l.license_id := by
  simp only [checkOneLicense] at hv
  split_ifs at hv <;>
    (injection hv with h; rw [← h]; exact ⟨rfl, rfl⟩)

theorem checkOneLicense_unknown_cases (policy : CompatibilityPolicy) (l : LicenseInfo)
    (hid : l.license_id = str "UNKNOWN") :
    (allowedNonempty policy = true →
      checkOneLicense policy l = (some ⟨l.name, l.license_id, unknownReason⟩, [])) ∧
    (allowedNonempty policy = false →
      checkOneLicense policy l = (none, [unknownWarning l.name])) := by
  constructor <;> intro h <;> simp [checkOneLicense, hid, h]

theorem checkOneLicense_no_unknown_viol (policy : CompatibilityPolicy) (l : LicenseInfo)
    (v : Violation) (hna : allowedNonempty policy = false)
    (hv : (checkOneLicense policy l).1 = some v) : v.license_id ≠ str "UNKNOWN" := by
  by_cases hid : l.license_id = str "UNKNOWN"
  · have h2 := (checkOneLicense_unknown_cases policy l hid).2 hna
    rw [h2] at hv
    exact absurd hv (by simp)
  · rw [(checkOneLicense_fields policy l v hv).2]
    exact hid

/-- **C4.** For every input license with identifier `UNKNOWN`: if the policy
has a nonempty allow-list, `checkCompatibility` records the
cannot-be-verified violation for it and applies no further rule to it; with
no (nonempty) allow-list it emits the advisory warning only, and no
violation with identifier `UNKNOWN` is ever recorded. -/
theorem unknown_license_evaluation (input : CheckCompatibilityInput) (l : LicenseInfo)
    (hl : l ∈ input.licenses) (hid : l.license_id = str "UNKNOWN") :
    (allowedNonempty input.policy = true →
      ∀ out m, checkCompatibility input = .ok out m →
        (⟨l.name, l.license_id, unknownReason⟩ : Violation) ∈ out.violations) ∧
    (allowedNonempty input.policy = false →
      ∀ out m, checkCompatibility input = .ok out m →
        unknownWarning l.name ∈ out.warnings ∧
        ∀ v ∈ out.violations, v.license_id ≠ str "UNKNOWN") := by
  constructor
  · intro ha out m hok
    rw [checkCompatibility_ok_inv input out m hok]
    refine runChecks_violations_mem input.policy input.licenses l hl _ ?_
    rw [(checkOneLicense_unknown_cases input.policy l hid).1 ha]
  · intro hna out m hok
    rw [checkCompatibility_ok_inv input out m hok]
    constructor
    · refine runChecks_warnings_mem input.policy input.licenses l hl _ ?_
      rw [(checkOneLicense_unknown_cases input.policy l hid).2 hna]
      exact List.mem_singleton.mpr rfl
    · intro v hv
      obtain ⟨l2, _, hc⟩ := runChecks_violations_sub input.policy input.licenses v hv
      exact checkOneLicense_no_unknown_viol input.policy l2 v hna hc

/-- Witness for C4: both branches at concrete inputs. -/
theorem unknown_license_evaluation_witness :
    (⟨some (str "pkg"), str "UNKNOWN", unknownReason⟩ : Violation) ∈
      ([⟨some (str "pkg"), str "UNKNOWN", unknownReason⟩] : List Violation) ∧
    (unknownWarning (some (str "pkg")) ∈ [unknownWarning (some (str "pkg"))] ∧
      ∀ v ∈ ([] : List Violation), v.license_id ≠ str "UNKNOWN") :=
  ⟨(unknown_license_evaluation
      ⟨[⟨some (str "pkg"), str "UNKNOWN"⟩], ⟨some [str "MIT"], none, none, none⟩⟩
      ⟨some (str "pkg"), str "UNKNOWN"⟩ (List.mem_cons_self _ _) rfl).1 rfl
      ⟨false, [⟨some (str "pkg"), str "UNKNOWN", unknownReason⟩], []⟩ none (by decide),
   (unknown_license_evaluation
      ⟨[⟨some (str "pkg"), str "UNKNOWN"⟩], ⟨none, none, none, none⟩⟩
      ⟨some (str "pkg"), str "UNKNOWN"⟩ (List.mem_cons_self _ _) rfl).2 rfl
      ⟨true, [], [unknownWarning (some (str "pkg"))]⟩
      (some [unknownWarning (some (str "pkg"))]) (by decide)⟩

/-- **C5.** A license whose identifier matches both the allow-list and the
deny-list always yields a violation (the deny rule fires first for
non-UNKNOWN identifiers), so the run is not compatible. -/
theorem deny_precedence (input : CheckCompatibilityInput) (l : LicenseInfo)
    (hl : l ∈ input.licenses) (dl al : List Str)
    (hd : input.policy.denied = some dl) (ha : input.policy.allowed = some al)
    (hdm : matchesLicenseList l.license_id dl = true)
    (ham : matchesLicenseList l.license_id al = true) :
    ∀ out m, checkCompatibility input = .ok out m →
      (∃ v ∈ out.violations, v.name = l.name ∧ v.license_id = l.license_id) ∧
      out.compatible = false ∧
      (l.license_id ≠ str "UNKNOWN" →
        (⟨l.name, l.license_id, deniedReason l.license_id⟩ : Violation) ∈ out.violations) := by
  intro out m hok
  have hane : al ≠ [] := by
    intro hnil
    rw [hnil, matchesLicenseList_nil] at ham
    cases ham
  have hal : allowedNonempty input.policy = true := by
    simp [allowedNonempty, ha, List.isEmpty_eq_false.mpr hane]
  rw [checkCompatibility_ok_inv input out m hok]
  by_cases hid : l.license_id = str "UNKNOWN"
  · have hc := (checkOneLicense_unknown_cases input.policy l hid).1 hal
    have hmem := runChecks_violations_mem input.policy input.licenses l hl _ (by rw [hc])
    refine ⟨⟨_, hmem, rfl, rfl⟩, ?_, fun hne => absurd hid hne⟩
    simp only [List.isEmpty_eq_false]
    exact List.ne_nil_of_mem hmem
  · have hc : checkOneLicense input.policy l =
        (some ⟨l.name, l.license_id, deniedReason l.license_id⟩, []) := by
      simp [checkOneLicense, hid, hd, hdm]
    have hmem := runChecks_violations_mem input.policy input.licenses l hl _ (by rw [hc])
    refine ⟨⟨_, hmem, rfl, rfl⟩, ?_, fun _ => hmem⟩
    simp only [List.isEmpty_eq_false]
    exact List.ne_nil_of_mem hmem

/-- Witness for C5: `MIT` present in both lists yields the deny violation. -/
theorem deny_precedence_witness :
    (∃ v ∈ ([⟨none, str "MIT", deniedReason (str "MIT")⟩] : List Violation),
        v.name = none ∧ v.license_id = str "MIT") ∧
    false = false ∧
    (str "MIT" ≠ str "UNKNOWN" →
      (⟨none, str "MIT", deniedReason (str "MIT")⟩ : Violation) ∈
        ([⟨none, str "MIT", deniedReason (str "MIT")⟩] : List Violation)) :=
  deny_precedence ⟨[⟨none, str "MIT"⟩], ⟨some [str "mit"], some [str "MIT"], none, none⟩⟩
    ⟨none, str "MIT"⟩ (List.mem_cons_self _ _) [str "MIT"] [str "mit"] rfl rfl
    (by decide) (by decide)
    ⟨false, [⟨none, str "MIT", deniedReason (str "MIT")⟩], []⟩ none (by decide)

/-- **C8.** For every valid input the verdict equals emptiness of the
violation list (warnings never affect it), and each input license
contributes at most one violation, so there are never more violations than
input licenses. -/
theorem verdict_spec (input : CheckCompatibilityInput) :
    ∀ out m, checkCompatibility input = .ok out m →
      ((out.compatible = true ↔ out.violations = []) ∧
       out.violations.length ≤ input.licenses.length) := by
  intro out m h
  rw [checkCompatibility_ok_inv input out m h]
  exact ⟨List.isEmpty_iff, runChecks_length input.policy input.licenses⟩

/-- Witness for C8 at a concrete valid input. -/
theorem verdict_spec_witness :
    ((true : Bool) = true ↔ ([] : List Violation) = []) ∧
    ([] : List Violation).length ≤ ([⟨none, str "WTFPL"⟩] : List LicenseInfo).length :=
  verdict_spec ⟨[⟨none, str "WTFPL"⟩], ⟨none, none, none, none⟩⟩
    ⟨true, [], []⟩ none (by decide)

theorem unknownReason_ne_copyleft (licenseId : Str) :
    unknownReason ≠ copyleftReason licenseId := by
  have e1 : unknownReason =
      'U' :: str "nknown license cannot be verified against allowed list" := rfl
  have e2 : copyleftReason licenseId =
      'L' :: (str "icense \x22" ++
        (licenseId ++ str "\x22 is a copyleft license and copyleft_ok is false")) := rfl
  rw [e1, e2]
  intro h
  injection h with h1 _
  exact absurd h1 (by decide)

theorem deniedReason_ne_copyleft (licenseId : Str) :
    deniedReason licenseId ≠ copyleftReason licenseId := by
  intro h
  unfold deniedReason copyleftReason at h
  exact absurd (List.append_cancel_left (List.append_cancel_left h)) (by decide)

theorem notAllowedReason_ne_copyleft (licenseId : Str) :
    notAllowedReason licenseId ≠ copyleftReason licenseId := by
  intro h
  unfold notAllowedReason copyleftReason at h
  exact absurd (List.append_cancel_left (List.append_cancel_left h)) (by decide)

theorem deniedReason_ne_notAllowed (licenseId : Str) :
    deniedReason licenseId ≠ notAllowedReason licenseId := by
  intro h
  unfold deniedReason notAllowedReason at h
  exact absurd (List.append_cancel_left (List.append_cancel_left h)) (by decide)

theorem copyleftReason_ne_notAllowed (licenseId : Str) :
    copyleftReason licenseId ≠ notAllowedReason licenseId := by
  intro h
  unfold copyleftReason notAllowedReason at h
  exact absurd (List.append_cancel_left (List.append_cancel_left h)) (by decide)

/-- **C9.** With `copyleft_ok: false` the input `[MIT, GPL-3.0-only]` (no
deny or allow rules) yields exactly the copyleft violation for the GPL
entry; with `copyleft_ok: true` or unset the same input yields zero
violations; and a copyleft violation arises only when `copyleft_ok` is
explicitly `false` and the identifier is in the registered copyleft set. -/
theorem copyleft_flag_spec :
    okViolations (checkCompatibility ⟨[⟨none, str "MIT"⟩, ⟨none, str "GPL-3.0-only"⟩],
        ⟨none, none, some false, none⟩⟩) =
      some [⟨none, str "GPL-3.0-only", copyleftReason (str "GPL-3.0-only")⟩] ∧
    okViolations (checkCompatibility ⟨[⟨none, str "MIT"⟩, ⟨none, str "GPL-3.0-only"⟩],
        ⟨none, none, some true, none⟩⟩) = some [] ∧
    okViolations (checkCompatibility ⟨[⟨none, str "MIT"⟩, ⟨none, str "GPL-3.0-only"⟩],
        ⟨none, none, none, none⟩⟩) = some [] ∧
    (∀ (policy : CompatibilityPolicy) (l : LicenseInfo) (v : Violation),
        (checkOneLicense policy l).1 = some v →
        v.reason = copyleftReason l.license_id →
        policy.copyleft_ok = some false ∧ isCopyleft l.license_id = true) := by
  refine ⟨by decide, by decide, by decide, ?_⟩
  intro policy l v hv hr
  simp only [checkOneLicense] at hv
  split_ifs at hv with h1 h2 h3 h4 h5
  · injection hv with h
    rw [← h] at hr
    exact absurd hr (unknownReason_ne_copyleft l.license_id)
  · injection hv with h
    rw [← h] at hr
    exact absurd hr (deniedReason_ne_copyleft l.license_id)
  · injection hv with h
    rw [← h] at hr
    exact absurd hr (notAllowedReason_ne_copyleft l.license_id)
  · rw [Bool.and_eq_true] at h5
    exact ⟨by simpa using h5.1, h5.2⟩

/-- **C10.** A present-but-empty allow-list behaves exactly like an absent
one: the whole `checkCompatibility` result is unchanged when `allowed:[]`
is replaced by no allow-list, an UNKNOWN license yields only the advisory
warning, and no recorded violation carries the not-in-allowed-list
reason. -/
theorem empty_allowlist_like_none (licenses : List LicenseInfo)
    (p : CompatibilityPolicy) (hp : p.allowed = some []) :
    checkCompatibility ⟨licenses, p⟩ =
      checkCompatibility ⟨licenses, ⟨none, p.denied, p.copyleft_ok, p.required_attribution⟩⟩ ∧
    (∀ l ∈ licenses, l.license_id = str "UNKNOWN" →
        checkOneLicense p l = (none, [unknownWarning l.name])) ∧
    (∀ out m, checkCompatibility ⟨licenses, p⟩ = .ok out m →
        ∀ v ∈ out.violations, v.reason ≠ notAllowedReason v.license_id) := by
  have hna : allowedNonempty p = false := by simp [allowedNonempty, hp]
  have hone : ∀ l, checkOneLicense p l =
      checkOneLicense ⟨none, p.denied, p.copyleft_ok, p.required_attribution⟩ l := by
    intro l
    simp [checkOneLicense, allowedNonempty, hp]
  refine ⟨?_, ?_, ?_⟩
  · unfold checkCompatibility
    simp only [checkCompatibilityInputOk]
    rw [runChecks_congr _ _ licenses hone]
  · intro l _ hid
    exact (checkOneLicense_unknown_cases p l hid).2 hna
  · intro out m hok v hv
    have hout := checkCompatibility_ok_inv _ _ _ hok
    rw [hout] at hv
    simp only at hv
    obtain ⟨l, _, hc⟩ := runChecks_violations_sub p licenses v hv
    simp only [checkOneLicense] at hc
    split_ifs at hc with h1 h2 h3 h4 h5
    · rw [hna] at h2
      cases h2
    · injection hc with h
      rw [← h]
      exact deniedReason_ne_notAllowed l.license_id
    · rw [Bool.and_eq_true, hna] at h4
      rcases h4 with ⟨h4, _⟩
      cases h4
    · injection hc with h
      rw [← h]
      exact copyleftReason_ne_notAllowed l.license_id

/-- Witness for C10 at a concrete input. -/
theorem empty_allowlist_like_none_witness :
    checkCompatibility ⟨[⟨none, str "UNKNOWN"⟩], ⟨some [], none, none, none⟩⟩ =
      checkCompatibility ⟨[⟨none, str "UNKNOWN"⟩], ⟨none, none, none, none⟩⟩ ∧
    checkOneLicense ⟨some [], none, none, none⟩ ⟨none, str "UNKNOWN"⟩ =
      (none, [unknownWarning none]) :=
  ⟨(empty_allowlist_like_none [⟨none, str "UNKNOWN"⟩] ⟨some [], none, none, none⟩ rfl).1,
   (empty_allowlist_like_none [⟨none, str "UNKNOWN"⟩] ⟨some [], none, none, none⟩ rfl).2.1
     ⟨none, str "UNKNOWN"⟩ (List.mem_cons_self _ _) rfl⟩

/-- **C2 (counterexample).** Supplying only an empty `dependencies` array
does not fail validation: `detect_licenses` returns a successful result
with an empty detection list, not an INVALID_INPUT error, because the
schema refinement uses JavaScript truthiness and an empty array is truthy. -/
theorem detect_empty_array_not_invalid :
    detectLicenses ⟨some [], none⟩ = .ok [] none ∧
    detectLicenses ⟨some [], none⟩ ≠ .error (str "INVALID_INPUT") := by
  constructor
  · decide
  · decide

/-- **C2 (amended).** `detect_licenses` fails with INVALID_INPUT (before any
processing, with no partial output) exactly when `dependencies` and `files`
are both absent; a supplied empty array passes validation and yields an
empty successful result. `check_compatibility` fails with INVALID_INPUT
for every empty `licenses` array. -/
theorem invalid_input_spec :
    (∀ input : DetectLicensesInput, input.dependencies = none → input.files = none →
        detectLicenses input = .error (str "INVALID_INPUT")) ∧
    (∀ (licenses : List LicenseInfo) (policy : CompatibilityPolicy), licenses = [] →
        checkCompatibility ⟨licenses, policy⟩ = .error (str "INVALID_INPUT")) ∧
    detectLicenses ⟨some [], none⟩ = .ok [] none ∧
    detectLicenses ⟨none, some []⟩ = .ok [] none := by
  refine ⟨?_, ?_, by decide, by decide⟩
  · intro input h1 h2
    simp [detectLicenses, detectLicensesInputOk, h1, h2]
  · intro licenses policy h
    subst h
    simp [checkCompatibility, checkCompatibilityInputOk]

/-- Witness for C2 (amended): both failure branches at concrete inputs. -/
theorem invalid_input_spec_witness :
    detectLicenses ⟨none, none⟩ = .error (str "INVALID_INPUT") ∧
    checkCompatibility ⟨[], ⟨none, none, none, none⟩⟩ = .error (str "INVALID_INPUT") :=
  ⟨invalid_input_spec.1 ⟨none, none⟩ rfl rfl,
   invalid_input_spec.2.1 [] ⟨none, none, none, none⟩ rfl⟩

/-- Finite check over the alias table: every key normalizes to its canonical
value, every value is a registered identifier, and keys are nonempty. -/
theorem aliasKey_normalize :
    ∀ kv ∈ LICENSE_ALIASES, normalizeLicenseId kv.1 = kv.2 ∧
      SPDX_LICENSE_IDS.contains kv.2 = true ∧ kv.1.isEmpty = false := by decide

/-- **C7.** For every (alias, canonical) pair of the alias table, detection
of a dependency carrying that alias as its explicit `license_id` yields the
canonical identifier with confidence `high` and source
`dependency_metadata`. -/
theorem alias_roundtrip (kv : Str × Str) (hkv : kv ∈ LICENSE_ALIASES)
    (name : Str) (hname : name.isEmpty = false) (version : Option Str) :
    detectLicenses ⟨some [⟨name, version, none, some kv.1⟩], none⟩ =
      .ok [⟨some name, version, kv.2, .high, str "dependency_metadata"⟩] none := by
  obtain ⟨h1, h2, h3⟩ := aliasKey_normalize kv hkv
  have h2m : kv.2 ∈ SPDX_LICENSE_IDS := by simpa using h2
  have hok : detectLicensesInputOk ⟨some [⟨name, version, none, some kv.1⟩], none⟩ = true := by
    simp [detectLicensesInputOk, dependencyInputOk, hname]
  unfold detectLicenses
  rw [hok]
  simp [collectResults, processDependency, optTruthy, h1, h2m, h3]

/-- Witness for C7: the `MIT License` alias round-trips to `MIT` (the
end-to-end example of the specification). -/
theorem alias_roundtrip_witness :
    detectLicenses ⟨some [⟨str "lodash", none, none, some (str "MIT License")⟩], none⟩ =
      .ok [⟨some (str "lodash"), none, str "MIT", .high, str "dependency_metadata"⟩] none :=
  alias_roundtrip (str "MIT License", str "MIT") (by decide) (str "lodash") (by decide) none

set_option maxRecDepth 1000000 in
/-- **C1 (counterexample).** A text consisting of the 3-clause BSD header
with its Neither-the-name clause — matching the BSD-3-Clause content
signature of the pattern list itself — is classified `BSD-2-Clause`, not
`BSD-3-Clause`, because the BSD-2-Clause content signature precedes the
BSD-3-Clause content signature and also matches the 3-clause text. -/
theorem bsd3_misclassified :
    searchToks [Tok.lit (str "neither the name")] (lower bsd3BodyText) = true ∧
    searchToks bsd3ContentPattern (lower bsd3BodyText) = true ∧
    detectFromText bsd3BodyText = some (str "BSD-2-Clause", .high) ∧
    detectFromText bsd3BodyText ≠ some (str "BSD-3-Clause", .high) := by
  have h3 : detectFromText bsd3BodyText = some (str "BSD-2-Clause", .high) := by decide
  refine ⟨by decide, by decide, h3, ?_⟩
  intro h
  rw [h3] at h
  exact absurd h (by decide)

/-- **C1 (amended).** A text that matches the `BSD 3-Clause License` header
signature — the only BSD-3-Clause signature placed before the BSD-2-Clause
one — and none of the four earlier MIT/Apache signatures is classified
`BSD-3-Clause` with confidence `high`; 3-clause body text without that
header that also matches the BSD-2-Clause content signature is classified
`BSD-2-Clause` (see the counterexample). -/
theorem bsd3_header_classification (text : Str)
    (h1 : searchToks mitPattern1 (lower text) = false)
    (h2 : searchToks mitPattern2 (lower text) = false)
    (h3 : searchToks apachePattern1 (lower text) = false)
    (h4 : searchToks apachePattern2 (lower text) = false)
    (h5 : searchToks bsd3HeaderPattern (lower text) = true) :
    detectFromText text = some (str "BSD-3-Clause", .high) := by
  unfold detectFromText
  simp only [LICENSE_PATTERNS]
  rw [List.find?_cons_of_neg _ (by simp [h1]), List.find?_cons_of_neg _ (by simp [h2]),
      List.find?_cons_of_neg _ (by simp [h3]), List.find?_cons_of_neg _ (by simp [h4]),
      List.find?_cons_of_pos _ (by simp [h5])]

/-- Witness for C1 (amended) at a concrete header text. -/
theorem bsd3_header_classification_witness :
    detectFromText (str "BSD 3-Clause License") = some (str "BSD-3-Clause", .high) :=
  bsd3_header_classification (str "BSD 3-Clause License")
    (by decide) (by decide) (by decide) (by decide) (by decide)

end LicenseCheck
